import Mathlib

/-!
# SwiftBench — shallow embedding and verification

A shallow embedding of the SwiftBench HTTP load generator's core
(histogram, rate limiter, request loop, metrics aggregator, threshold
checks, CLI flag parsing and compare mode) translated from the
TypeScript sources, together with theorems settling the specification
claims about it.

Conventions of the embedding:
* JavaScript numbers are modelled as `ℚ` (latencies, tokens, time
  stamps) or `ℕ` (counters); `Math.floor` is `Int.floor`, `Math.min`
  is `Min.min`.
* The floating-point `Math.sqrt` used by `getStdDev` is modelled as an
  arbitrary function parameter `sqrtFn : ℚ → ℚ`.
* `Uint32Array` bucket stores are modelled as total functions
  `ℕ → ℕ`; an out-of-range JavaScript index read yields `undefined`
  and the source skips the write, which the embedding mirrors with an
  explicit bounds test.
* JavaScript `Record` objects keyed by status code are modelled as
  insertion-ordered association lists (`List (ℕ × ℕ)`); the
  aggregator's `Map` is modelled by its contents, a function `ℕ → ℕ`.
* Asynchronous effects (HTTP responses, thrown errors, timer sleeps)
  are modelled by passing the outcome or the clock value explicitly.
-/

namespace SwiftBench

/-! ## Constants (src/constants.ts) -/

def HISTOGRAM_BUCKETS : ℕ := 10000

def MAX_LATENCY_US : ℚ := 10000000

def BUCKET_WIDTH_US : ℚ := MAX_LATENCY_US / (HISTOGRAM_BUCKETS : ℚ)

/-- `Number.MAX_SAFE_INTEGER`, the initial value of `Histogram.min`. -/
def MAX_SAFE_INTEGER : ℚ := 9007199254740991

def SUCCESS_STATUS_CODES : List ℕ := [200, 201, 202, 204, 301, 302, 304]

def METRICS_INTERVAL_MS : ℚ := 1000

def EXIT_SUCCESS : ℕ := 0

def EXIT_THRESHOLD_EXCEEDED : ℕ := 1

def EXIT_ERROR : ℕ := 2

/-! ## Histogram (src/core/metrics/histogram.ts) -/

/-- Mutable state of the `Histogram` class: bucket counts, total
count, and running min / max / sum. -/
@[ext]
structure Histogram where
  buckets : ℕ → ℕ
  count : ℕ
  min : ℚ
  max : ℚ
  sum : ℚ

/-- The `Histogram` constructor: zeroed buckets, `count = 0`,
`min = Number.MAX_SAFE_INTEGER`, `max = 0`, `sum = 0`. -/
def Histogram.empty : Histogram :=
  { buckets := fun _ => 0
    count := 0
    min := MAX_SAFE_INTEGER
    max := 0
    sum := 0 }

/-- `Histogram.record(valueUs)`.  The bucket index is computed from
the value clamped to `MAX_LATENCY_US - 1`; the write is skipped when
the resulting index is negative (in the source `buckets[safeIndex]`
is `undefined` then); `count`, `sum`, `min`, `max` are updated with
the raw value. -/
def Histogram.record (h : Histogram) (valueUs : ℚ) : Histogram :=
  let clampedValue := Min.min valueUs (MAX_LATENCY_US - 1)
  let bucketIndex : ℤ := ⌊clampedValue / BUCKET_WIDTH_US⌋
  let safeIndex : ℤ := Min.min bucketIndex ((HISTOGRAM_BUCKETS : ℤ) - 1)
  { buckets := fun i =>
      if 0 ≤ safeIndex ∧ i = safeIndex.toNat then h.buckets i + 1 else h.buckets i
    count := h.count + 1
    min := if valueUs < h.min then valueUs else h.min
    max := if valueUs > h.max then valueUs else h.max
    sum := h.sum + valueUs }

def Histogram.getCount (h : Histogram) : ℕ := h.count

def Histogram.getMin (h : Histogram) : ℚ := if h.count > 0 then h.min else 0

def Histogram.getMax (h : Histogram) : ℚ := h.max

def Histogram.getMean (h : Histogram) : ℚ :=
  if h.count > 0 then h.sum / (h.count : ℚ) else 0

def Histogram.getSum (h : Histogram) : ℚ := h.sum

/-- The scan loop of `getPercentile`: iterate buckets from index `i`
with `fuel` iterations left, accumulating `cum`; return the bucket
midpoint as soon as the cumulative count reaches `target`, and
`MAX_LATENCY_US` if the loop ends. -/
def percentileScan (b : ℕ → ℕ) (target : ℤ) : ℕ → ℤ → ℕ → ℚ
  | _, _, 0 => MAX_LATENCY_US
  | i, cum, fuel + 1 =>
      let cum' := cum + (b i : ℤ)
      if target ≤ cum' then ((i : ℚ) + 1/2) * BUCKET_WIDTH_US
      else percentileScan b target (i + 1) cum' fuel

/-- `Histogram.getPercentile(percentile)`: `0` when empty, otherwise
scan the buckets for the first cumulative count reaching
`Math.ceil((percentile / 100) * count)`. -/
def Histogram.getPercentile (h : Histogram) (percentile : ℚ) : ℚ :=
  if h.count = 0 then 0
  else percentileScan h.buckets ⌈percentile / 100 * (h.count : ℚ)⌉ 0 0 HISTOGRAM_BUCKETS

/-- The `sumSquaredDiff` accumulator of `getStdDev` restricted to the
first `n` buckets. -/
def Histogram.sumSquaredDiff (h : Histogram) (n : ℕ) : ℚ :=
  ∑ i ∈ Finset.range n,
    (((i : ℚ) + 1/2) * BUCKET_WIDTH_US - h.getMean) ^ 2 * (h.buckets i : ℚ)

/-- The `counted` accumulator of `getStdDev` restricted to the first
`n` buckets. -/
def Histogram.countedBuckets (h : Histogram) (n : ℕ) : ℕ :=
  ∑ i ∈ Finset.range n, h.buckets i

/-- `Histogram.getStdDev()`: `0` when `count < 2`, otherwise the
square root of the bucket-midpoint variance.  The floating-point
`Math.sqrt` is the parameter `sqrtFn`. -/
def Histogram.getStdDev (sqrtFn : ℚ → ℚ) (h : Histogram) : ℚ :=
  if h.count < 2 then 0
  else sqrtFn (h.sumSquaredDiff HISTOGRAM_BUCKETS / (h.countedBuckets HISTOGRAM_BUCKETS : ℚ))

/-- `HistogramData`, the transfer record produced by
`Histogram.export()`. -/
structure HistogramData where
  buckets : ℕ → ℕ
  count : ℕ
  min : ℚ
  max : ℚ
  sum : ℚ

/-- `Histogram.export()` (renamed: `export` is a Lean keyword). -/
def Histogram.exportData (h : Histogram) : HistogramData :=
  { buckets := h.buckets, count := h.count, min := h.min, max := h.max, sum := h.sum }

/-- `Histogram.import(data)` (renamed: `import` is a Lean keyword):
elementwise-add the first `HISTOGRAM_BUCKETS` buckets, accumulate
`count` and `sum`, and update `min` / `max` only when the incoming
count is positive. -/
def Histogram.importData (h : Histogram) (data : HistogramData) : Histogram :=
  { buckets := fun i => if i < HISTOGRAM_BUCKETS then h.buckets i + data.buckets i else h.buckets i
    count := h.count + data.count
    sum := h.sum + data.sum
    min := if data.count > 0 ∧ data.min < h.min then data.min else h.min
    max := if data.count > 0 ∧ data.max > h.max then data.max else h.max }

/-- `Histogram.merge(other) = this.import(other.export())`. -/
def Histogram.merge (h other : Histogram) : Histogram :=
  h.importData other.exportData

/-! ## RateLimiter (src/core/scheduler/rate-limiter.ts)

Time stamps (`performance.now()` values, in milliseconds) are passed
explicitly; a statement sequence that does not await is modelled as
executing at a single instant, and the `setTimeout` sleep is modelled
as advancing the clock by exactly the requested amount. -/

/-- State of the `RateLimiter` class. -/
structure RateLimiter where
  ratePerSecond : ℚ
  intervalMs : ℚ
  tokens : ℚ
  lastRefill : ℚ

/-- The `RateLimiter` constructor at clock value `now`. -/
def RateLimiter.init (ratePerSecond : ℚ) (now : ℚ) : RateLimiter :=
  { ratePerSecond := ratePerSecond
    intervalMs := 1000 / ratePerSecond
    tokens := ratePerSecond
    lastRefill := now }

/-- JavaScript's `%` operator (remainder with truncated division). -/
def jsRem (a b : ℚ) : ℚ :=
  if 0 ≤ a / b then a - b * (⌊a / b⌋ : ℚ) else a - b * (⌈a / b⌉ : ℚ)

/-- `RateLimiter.refill()`: add `(elapsed / 1000) * rate` tokens,
capped at `ratePerSecond`, but only when at least one token accrued. -/
def RateLimiter.refill (s : RateLimiter) (now : ℚ) : RateLimiter :=
  let elapsed := now - s.lastRefill
  let tokensToAdd := elapsed / 1000 * s.ratePerSecond
  if 1 ≤ tokensToAdd then
    { s with tokens := Min.min s.ratePerSecond (s.tokens + tokensToAdd), lastRefill := now }
  else s

/-- `RateLimiter.tryAcquire()`: refill, then take a token when at
least one is available. -/
def RateLimiter.tryAcquire (s : RateLimiter) (now : ℚ) : Bool × RateLimiter :=
  let s1 := s.refill now
  if 1 ≤ s1.tokens then (true, { s1 with tokens := s1.tokens - 1 })
  else (false, s1)

/-- `RateLimiter.acquire()`: refill and take a token immediately when
one is available; otherwise sleep until the next refill-interval
boundary, refill again, and take a token.  Returns the new state and
the clock value at which the call completes. -/
def RateLimiter.acquire (s : RateLimiter) (now : ℚ) : RateLimiter × ℚ :=
  let s1 := s.refill now
  if 1 ≤ s1.tokens then ({ s1 with tokens := s1.tokens - 1 }, now)
  else
    let waitTime := s1.intervalMs - jsRem (now - s1.lastRefill) s1.intervalMs
    let now' := now + Max.max 0 waitTime
    let s2 := s1.refill now'
    ({ s2 with tokens := s2.tokens - 1 }, now')

/-- `createRateLimiter(rate)`: `null` when the rate is absent or not
positive. -/
def createRateLimiter (rate : Option ℚ) (now : ℚ) : Option RateLimiter :=
  match rate with
  | none => none
  | some r => if r ≤ 0 then none else some (RateLimiter.init r now)

/-! ## RequestLoop (src/core/worker/loop.ts)

The outcome of one `HttpClient.execute` call — either a completed
response or a thrown error — is passed to `executeRequest`
explicitly.  A thrown error is classified as a timeout when its
message contains `'timeout'` or its name is `'TimeoutError'`; that
classification is carried as a `Bool`. -/

/-- Outcome of a single `HttpClient.execute` call. -/
inductive RequestOutcome where
  | response (statusCode : ℕ) (bytes : ℕ) (latencyUs : ℚ)
  | thrown (isTimeout : Bool)
  deriving DecidableEq

/-- `ErrorBreakdown`: timeout count, connection-error count and the
per-status-code `Record` (an insertion-ordered association list). -/
structure ErrorBreakdown where
  timeouts : ℕ
  connectionErrors : ℕ
  byStatusCode : List (ℕ × ℕ)
  deriving DecidableEq

/-- `byStatusCode[status] = (byStatusCode[status] ?? 0) + 1` on a
`Record`: increment an existing key in place, or append a new key. -/
def bumpStatus : List (ℕ × ℕ) → ℕ → List (ℕ × ℕ)
  | [], code => [(code, 1)]
  | (c, n) :: rest, code =>
      if c = code then (c, n + 1) :: rest else (c, n) :: bumpStatus rest code

/-- `LoopState`, the mutable counters of `RequestLoop`. -/
structure LoopState where
  running : Bool
  requests : ℕ
  successful : ℕ
  failed : ℕ
  bytes : ℕ
  latencies : List ℚ
  errors : ErrorBreakdown
  deriving DecidableEq

/-- `createInitialState()`. -/
def createInitialState : LoopState :=
  { running := true
    requests := 0
    successful := 0
    failed := 0
    bytes := 0
    latencies := []
    errors := { timeouts := 0, connectionErrors := 0, byStatusCode := [] } }

/-- `RequestLoop.executeRequest()` applied to the outcome of the
`HttpClient.execute` call it awaits. -/
def executeRequest (s : LoopState) (outcome : RequestOutcome) : LoopState :=
  let s := { s with requests := s.requests + 1 }
  match outcome with
  | .response statusCode bytes latencyUs =>
      let s := { s with latencies := s.latencies ++ [latencyUs], bytes := s.bytes + bytes }
      if statusCode ∈ SUCCESS_STATUS_CODES then
        { s with successful := s.successful + 1 }
      else
        { s with
            failed := s.failed + 1
            errors := { s.errors with byStatusCode := bumpStatus s.errors.byStatusCode statusCode } }
  | .thrown isTimeout =>
      let s := { s with failed := s.failed + 1 }
      if isTimeout then
        { s with errors := { s.errors with timeouts := s.errors.timeouts + 1 } }
      else
        { s with errors := { s.errors with connectionErrors := s.errors.connectionErrors + 1 } }

/-- `MetricsSnapshot`, the value-copied message a worker emits. -/
structure MetricsSnapshot where
  workerId : ℕ
  requests : ℕ
  successful : ℕ
  failed : ℕ
  bytes : ℕ
  latencies : List ℚ
  errors : ErrorBreakdown
  deriving DecidableEq

/-- `RequestLoop.getSnapshot()`: a copy of the current (cumulative)
loop state — no field is reset afterwards. -/
def getSnapshot (workerId : ℕ) (s : LoopState) : MetricsSnapshot :=
  { workerId := workerId
    requests := s.requests
    successful := s.successful
    failed := s.failed
    bytes := s.bytes
    latencies := s.latencies
    errors := s.errors }

/-! ## MetricsAggregator (src/core/metrics/aggregator.ts) -/

/-- State of `MetricsAggregator`; the `Map<number, number>` of status
codes is modelled by its contents. -/
@[ext]
structure AggState where
  histogram : Histogram
  totalRequests : ℕ
  successfulRequests : ℕ
  failedRequests : ℕ
  totalBytes : ℕ
  timeouts : ℕ
  connectionErrors : ℕ
  statusCodes : ℕ → ℕ

/-- The `MetricsAggregator` constructor. -/
def AggState.init : AggState :=
  { histogram := Histogram.empty
    totalRequests := 0
    successfulRequests := 0
    failedRequests := 0
    totalBytes := 0
    timeouts := 0
    connectionErrors := 0
    statusCodes := fun _ => 0 }

/-- The `for (const [code, count] of Object.entries(...))` loop of
`addSnapshot`: fold each entry into the status-code map via
`map.set(code, (map.get(code) ?? 0) + count)`. -/
def addStatusEntries (m : ℕ → ℕ) (entries : List (ℕ × ℕ)) : ℕ → ℕ :=
  entries.foldl (fun m e => fun c => if c = e.1 then m c + e.2 else m c) m

/-- `MetricsAggregator.addSnapshot(snapshot)`: accumulate the
counters, record every raw latency sample into the master histogram,
and fold the per-status-code entries into the map. -/
def AggState.addSnapshot (s : AggState) (snapshot : MetricsSnapshot) : AggState :=
  { histogram := snapshot.latencies.foldl Histogram.record s.histogram
    totalRequests := s.totalRequests + snapshot.requests
    successfulRequests := s.successfulRequests + snapshot.successful
    failedRequests := s.failedRequests + snapshot.failed
    totalBytes := s.totalBytes + snapshot.bytes
    timeouts := s.timeouts + snapshot.errors.timeouts
    connectionErrors := s.connectionErrors + snapshot.errors.connectionErrors
    statusCodes := addStatusEntries s.statusCodes snapshot.errors.byStatusCode }

/-! ## Percentile formatting (src/core/metrics/percentiles.ts) -/

/-- `LatencyStats` (milliseconds). -/
structure LatencyStats where
  min : ℚ
  max : ℚ
  mean : ℚ
  stddev : ℚ
  p50 : ℚ
  p75 : ℚ
  p90 : ℚ
  p95 : ℚ
  p99 : ℚ
  p999 : ℚ

/-- `calculatePercentiles(histogram)`: each statistic converted from
microseconds to milliseconds. -/
def calculatePercentiles (sqrtFn : ℚ → ℚ) (h : Histogram) : LatencyStats :=
  let toMs : ℚ → ℚ := fun us => us / 1000
  { min := toMs h.getMin
    max := toMs h.getMax
    mean := toMs h.getMean
    stddev := toMs (h.getStdDev sqrtFn)
    p50 := toMs (h.getPercentile 50)
    p75 := toMs (h.getPercentile 75)
    p90 := toMs (h.getPercentile 90)
    p95 := toMs (h.getPercentile 95)
    p99 := toMs (h.getPercentile 99)
    p999 := toMs (h.getPercentile (999/10)) }

/-- `Math.round` (half away from zero rounds toward `+∞` in
JavaScript, matching `⌊x + 1/2⌋`). -/
def jsRound (x : ℚ) : ℚ := (⌊x + 1/2⌋ : ℚ)

/-- `roundTo(value, 2)`. -/
def roundTo (value : ℚ) : ℚ := jsRound (value * 100) / 100

/-- `formatLatencyStats(stats)`: round every field to two decimals. -/
def formatLatencyStats (stats : LatencyStats) : LatencyStats :=
  { min := roundTo stats.min
    max := roundTo stats.max
    mean := roundTo stats.mean
    stddev := roundTo stats.stddev
    p50 := roundTo stats.p50
    p75 := roundTo stats.p75
    p90 := roundTo stats.p90
    p95 := roundTo stats.p95
    p99 := roundTo stats.p99
    p999 := roundTo stats.p999 }

/-- The output record of `MetricsAggregator.getMetrics()`. -/
structure AggregatedMetrics where
  totalRequests : ℕ
  successfulRequests : ℕ
  failedRequests : ℕ
  totalBytes : ℕ
  latency : LatencyStats
  timeouts : ℕ
  connectionErrors : ℕ
  byStatusCode : ℕ → ℕ

/-- `MetricsAggregator.getMetrics()`. -/
def AggState.getMetrics (sqrtFn : ℚ → ℚ) (s : AggState) : AggregatedMetrics :=
  { totalRequests := s.totalRequests
    successfulRequests := s.successfulRequests
    failedRequests := s.failedRequests
    totalBytes := s.totalBytes
    latency := formatLatencyStats (calculatePercentiles sqrtFn s.histogram)
    timeouts := s.timeouts
    connectionErrors := s.connectionErrors
    byStatusCode := s.statusCodes }

/-! ## CLI: thresholds, reporters, flags (src/cli/commands/run.ts,
src/cli/flags.ts) -/

/-- `ThresholdConfig` (optional fields of the `thresholds` object). -/
structure ThresholdConfig where
  p99 : Option ℚ
  p95 : Option ℚ
  errorRate : Option ℚ
  minRps : Option ℚ
  deriving DecidableEq

/-- The request totals of a `BenchResult`. -/
structure RequestCounts where
  total : ℕ
  successful : ℕ
  failed : ℕ
  deriving DecidableEq

/-- The throughput block of a `BenchResult`. -/
structure Throughput where
  rps : ℚ
  bytesPerSecond : ℚ
  totalBytes : ℕ
  deriving DecidableEq

/-- `BenchResult` (the fields the CLI layer reads; the string-valued
metadata, timestamp and method fields carry no logic and are kept as
plain strings). -/
structure BenchResult where
  url : String
  method : String
  duration : ℚ
  connections : ℕ
  rate : Option ℚ
  requests : RequestCounts
  throughput : Throughput
  latency : LatencyStats
  errors : ErrorBreakdown
  timestamp : String

/-- The `config` argument of `checkThresholds` (only the `thresholds`
field is read). -/
structure ThresholdedConfig where
  thresholds : Option ThresholdConfig

/-- `checkThresholds(result, config)`: exit `1` when the p99
threshold is set and strictly exceeded, else exit `1` when the
error-rate threshold is set, the total is positive and the failure
fraction strictly exceeds it, else exit `0`. -/
def checkThresholds (result : BenchResult) (config : ThresholdedConfig) : ℕ :=
  match config.thresholds with
  | none => EXIT_SUCCESS
  | some t =>
      if (match t.p99 with
          | some p99 => decide (result.latency.p99 > p99)
          | none => false) then EXIT_THRESHOLD_EXCEEDED
      else if (match t.errorRate with
          | some errorRate =>
              decide (result.requests.total > 0 ∧
                (result.requests.failed : ℚ) / (result.requests.total : ℚ) > errorRate)
          | none => false) then EXIT_THRESHOLD_EXCEEDED
      else EXIT_SUCCESS

/-- The four reporter constructors selectable by `getReporter`. -/
inductive Reporter where
  | console
  | json
  | html
  | csv
  deriving DecidableEq

/-- `getReporter(format)`: `switch` on the format string with the
console reporter as the `default` branch. -/
def getReporter (format : String) : Reporter :=
  if format = "json" then Reporter.json
  else if format = "html" then Reporter.html
  else if format = "csv" then Reporter.csv
  else Reporter.console

/-- `ParsedFlags` (src/cli/flags.ts).  Numeric flag values are
whatever `parseInt` / `parseFloat` returned. -/
structure ParsedFlags where
  urls : List String
  method : String
  connections : ℚ
  duration : ℚ
  rate : Option ℚ
  timeout : ℚ
  rampUp : Option ℚ
  warmup : Option ℚ
  headers : List (String × String)
  body : Option String
  http2 : Bool
  output : String
  outputFile : Option String
  p99Threshold : Option ℚ
  errorRateThreshold : Option ℚ
  compare : Bool
  help : Bool
  version : Bool

/-- The initial `flags` object of `parseFlags`. -/
def initialFlags : ParsedFlags :=
  { urls := []
    method := "GET"
    connections := 50
    duration := 10
    rate := none
    timeout := 5000
    rampUp := none
    warmup := none
    headers := []
    body := none
    http2 := false
    output := "console"
    outputFile := none
    p99Threshold := none
    errorRateThreshold := none
    compare := false
    help := false
    version := false }

/-- `headers[key] = value` on a `Record`: overwrite in place or
append. -/
def setHeader : List (String × String) → String → String → List (String × String)
  | [], key, value => [(key, value)]
  | (k, v) :: rest, key, value =>
      if k = key then (k, value) :: rest else (k, v) :: setHeader rest key value

/-- `arg.startsWith('-')`: a one-character prefix test, modelled on
the character list. -/
def startsWithDash (arg : String) : Bool :=
  match arg.data with
  | [] => false
  | c :: _ => c = '-'

/-- The `-H` branch body: split `"Name: Value"` at the first colon
(which must not be at position 0) and store the trimmed pieces. -/
def addHeaderFlag (headers : List (String × String)) (header : String) :
    List (String × String) :=
  match (header.toList.findIdx? (· = ':')) with
  | some colonIndex =>
      if colonIndex > 0 then
        let key := ((header.toList.take colonIndex).asString).trim
        let value := ((header.toList.drop (colonIndex + 1)).asString).trim
        setHeader headers key value
      else headers
  | none => headers

/-- The `while` loop of `parseFlags`, one iteration per leading
argument; flags taking a value consume the next argument (or fall
back to a default when the list is exhausted, as `args[++i] ?? d`
does).  The numeric `parseInt(·, 10)` / `parseFloat` conversions are
abstracted as the parameters `pInt` / `pFloat`. -/
def parseArgsLoop (pInt : String → ℚ) (pFloat : String → ℚ) :
    ParsedFlags → List String → ParsedFlags
  | flags, [] => flags
  | flags, arg :: rest =>
      if arg = "-h" ∨ arg = "--help" then
        parseArgsLoop pInt pFloat { flags with help := true } rest
      else if arg = "-v" ∨ arg = "--version" then
        parseArgsLoop pInt pFloat { flags with version := true } rest
      else if arg = "--compare" then
        parseArgsLoop pInt pFloat { flags with compare := true } rest
      else if arg = "-c" ∨ arg = "--connections" then
        match rest with
        | v :: rest' => parseArgsLoop pInt pFloat { flags with connections := pInt v } rest'
        | [] => { flags with connections := pInt "50" }
      else if arg = "-d" ∨ arg = "--duration" then
        match rest with
        | v :: rest' => parseArgsLoop pInt pFloat { flags with duration := pInt v } rest'
        | [] => { flags with duration := pInt "10" }
      else if arg = "--rate" then
        match rest with
        | v :: rest' => parseArgsLoop pInt pFloat { flags with rate := some (pInt v) } rest'
        | [] => { flags with rate := some (pInt "0") }
      else if arg = "--ramp-up" then
        match rest with
        | v :: rest' => parseArgsLoop pInt pFloat { flags with rampUp := some (pInt v) } rest'
        | [] => { flags with rampUp := some (pInt "0") }
      else if arg = "--warmup" then
        match rest with
        | v :: rest' => parseArgsLoop pInt pFloat { flags with warmup := some (pInt v) } rest'
        | [] => { flags with warmup := some (pInt "0") }
      else if arg = "--timeout" then
        match rest with
        | v :: rest' => parseArgsLoop pInt pFloat { flags with timeout := pInt v } rest'
        | [] => { flags with timeout := pInt "5000" }
      else if arg = "-m" ∨ arg = "--method" then
        match rest with
        | v :: rest' => parseArgsLoop pInt pFloat { flags with method := v.toUpper } rest'
        | [] => { flags with method := "GET".toUpper }
      else if arg = "-H" ∨ arg = "--header" then
        match rest with
        | v :: rest' =>
            parseArgsLoop pInt pFloat { flags with headers := addHeaderFlag flags.headers v } rest'
        | [] => { flags with headers := addHeaderFlag flags.headers "" }
      else if arg = "--body" then
        match rest with
        | v :: rest' => parseArgsLoop pInt pFloat { flags with body := some v } rest'
        | [] => { flags with body := none }
      else if arg = "--json" then
        match rest with
        | v :: rest' =>
            parseArgsLoop pInt pFloat
              { flags with
                  body := some v
                  headers := setHeader flags.headers "Content-Type" "application/json" } rest'
        | [] =>
            { flags with
                body := none
                headers := setHeader flags.headers "Content-Type" "application/json" }
      else if arg = "--http2" then
        parseArgsLoop pInt pFloat { flags with http2 := true } rest
      else if arg = "--output" then
        match rest with
        | v :: rest' =>
            let format := v
            if format = "console" ∨ format = "json" ∨ format = "html" ∨ format = "csv" then
              parseArgsLoop pInt pFloat { flags with output := format } rest'
            else
              parseArgsLoop pInt pFloat flags rest'
        | [] => { flags with output := "console" }
      else if arg = "-o" then
        match rest with
        | v :: rest' => parseArgsLoop pInt pFloat { flags with outputFile := some v } rest'
        | [] => { flags with outputFile := none }
      else if arg = "--p99" then
        match rest with
        | v :: rest' =>
            parseArgsLoop pInt pFloat { flags with p99Threshold := some (pFloat v) } rest'
        | [] => { flags with p99Threshold := some (pFloat "0") }
      else if arg = "--error-rate" then
        match rest with
        | v :: rest' =>
            parseArgsLoop pInt pFloat { flags with errorRateThreshold := some (pFloat v) } rest'
        | [] => { flags with errorRateThreshold := some (pFloat "0") }
      else if ¬ startsWithDash arg then
        parseArgsLoop pInt pFloat { flags with urls := flags.urls ++ [arg] } rest
      else
        parseArgsLoop pInt pFloat flags rest

/-- `parseFlags(args)`. -/
def parseFlags (pInt : String → ℚ) (pFloat : String → ℚ) (args : List String) : ParsedFlags :=
  parseArgsLoop pInt pFloat initialFlags args

/-- `BenchConfig` as built by `flagsToConfig` (user-facing optional
configuration). -/
structure BenchConfig where
  url : String
  method : String
  headers : List (String × String)
  connections : ℚ
  duration : ℚ
  timeout : ℚ
  http2 : Bool
  output : String
  outputFile : Option String
  body : Option String
  rate : Option ℚ
  rampUp : Option ℚ
  warmup : Option ℚ
  thresholds : Option ThresholdConfig

/-- `flagsToConfig(flags)`: `null` when no URL was given, otherwise
the assembled configuration. -/
def flagsToConfig (flags : ParsedFlags) : Option BenchConfig :=
  if flags.urls.length = 0 then none
  else
    some
      { url := flags.urls.headD ""
        method := flags.method
        headers := flags.headers
        connections := flags.connections
        duration := flags.duration
        timeout := flags.timeout
        http2 := flags.http2
        output := flags.output
        outputFile := flags.outputFile
        body := flags.body
        rate := flags.rate
        rampUp := flags.rampUp
        warmup := flags.warmup
        thresholds :=
          if flags.p99Threshold.isSome ∨ flags.errorRateThreshold.isSome then
            some
              { p99 := flags.p99Threshold
                p95 := none
                errorRate := flags.errorRateThreshold
                minRps := none }
          else none }

/-! ## Compare mode (src/cli/commands/run.ts `compareCommand`)

The effectful per-URL work — the reachability probe and the
`runBenchmark` call — is modelled by the observed outcome for each
URL. -/

/-- What happened for one URL inside the `for` loop of
`compareCommand`. -/
inductive UrlOutcome where
  | unreachable (error : String)
  | benchThrew (message : String)
  | benchOk (result : BenchResult)

/-- The `CompareResult` row pushed for a successful benchmark. -/
structure CompareRow where
  url : String
  rps : ℚ
  p50 : ℚ
  p99 : ℚ
  errorRate : ℚ

/-- The row `compareCommand` builds from a successful result. -/
def compareRowOf (url : String) (result : BenchResult) : CompareRow :=
  { url := url
    rps := result.throughput.rps
    p50 := result.latency.p50
    p99 := result.latency.p99
    errorRate :=
      if result.requests.total > 0 then
        (result.requests.failed : ℚ) / (result.requests.total : ℚ) * 100
      else 0 }

/-- One iteration of the `for` loop of `compareCommand`: unreachable
URLs and URLs whose benchmark threw are skipped with a warning; a
completed benchmark pushes a row. -/
def compareStep (acc : List CompareRow) (entry : String × UrlOutcome) : List CompareRow :=
  match entry.2 with
  | .unreachable _ => acc
  | .benchThrew _ => acc
  | .benchOk result => acc ++ [compareRowOf entry.1 result]

/-- The `results` array after the `for` loop of `compareCommand`. -/
def compareResults (outcomes : List (String × UrlOutcome)) : List CompareRow :=
  outcomes.foldl compareStep []

/-- The exit code of `compareCommand`: `EXIT_ERROR` when no URL
produced a result, `EXIT_SUCCESS` otherwise.  Thresholds are never
consulted. -/
def compareExit (outcomes : List (String × UrlOutcome)) : ℕ :=
  if (compareResults outcomes).length = 0 then EXIT_ERROR else EXIT_SUCCESS

/-! ## Derived observations used by the statements -/

/-- Whether a `UrlOutcome` contributed a comparison row. -/
def UrlOutcome.isOk : UrlOutcome → Prop
  | .benchOk _ => True
  | .unreachable _ => False
  | .benchThrew _ => False

instance : DecidablePred UrlOutcome.isOk := fun o => by
  cases o <;> simp [UrlOutcome.isOk] <;> infer_instance

/-- Total failure count carried by a per-status-code `Record`. -/
def sumByStatus (l : List (ℕ × ℕ)) : ℕ := (l.map Prod.snd).sum

/-- `byStatusCode[code] ?? 0` on a `Record`. -/
def lookupStatus (l : List (ℕ × ℕ)) (code : ℕ) : ℕ :=
  match l.find? (fun e => e.1 = code) with
  | some e => e.2
  | none => 0

/-- Total count attributed to `code` by a list of status-code
entries. -/
def entrySum : List (ℕ × ℕ) → ℕ → ℕ
  | [], _ => 0
  | e :: rest, code => (if code = e.1 then e.2 else 0) + entrySum rest code

/-- Cumulative bucket count through index `i` (the scan accumulator
of `getPercentile` after processing bucket `i`). -/
def cumCount (b : ℕ → ℕ) (i : ℕ) : ℤ :=
  ∑ j ∈ Finset.range (i + 1), (b j : ℤ)

/-- States of `Histogram` reachable by `record` / `merge` from the
constructor: `max` never drops below its initial `0`, `min` never
rises above its initial `Number.MAX_SAFE_INTEGER`, and an empty
histogram still carries the initial sentinels. -/
def Histogram.WF (h : Histogram) : Prop :=
  0 ≤ h.max ∧ h.min ≤ MAX_SAFE_INTEGER ∧ (h.count = 0 → h.min = MAX_SAFE_INTEGER ∧ h.max = 0)

instance (h : Histogram) : Decidable h.WF := by unfold Histogram.WF; infer_instance

/-- States of `RateLimiter` reachable from the constructor for an
integral rate `r ≥ 1` (the CLI passes `Math.ceil` shares of a parsed
positive integer): the interval is consistent with the rate and the
token count lies in `[0, capacity]` with `capacity = r`. -/
def RateLimiter.WF (s : RateLimiter) : Prop :=
  1 ≤ s.ratePerSecond ∧ s.intervalMs = 1000 / s.ratePerSecond ∧
    0 ≤ s.tokens ∧ s.tokens ≤ s.ratePerSecond

instance (s : RateLimiter) : Decidable s.WF := by unfold RateLimiter.WF; infer_instance

/-- The failure-accounting invariant of `LoopState`. -/
def LoopState.accounted (s : LoopState) : Prop :=
  s.errors.timeouts + s.errors.connectionErrors + sumByStatus s.errors.byStatusCode = s.failed ∧
    s.successful + s.failed = s.requests

/-- The running `min` / `max` bound `count · min ≤ sum ≤ count · max`,
preserved by every `record` (raw values). -/
def Histogram.sumBounded (h : Histogram) : Prop :=
  (h.count : ℚ) * h.min ≤ h.sum ∧ h.sum ≤ (h.count : ℚ) * h.max

/-- A concrete assembled result for the C8 witness: p99 of 12 ms. -/
def sampleResult : BenchResult :=
  { url := "http://localhost:3000"
    method := "GET"
    duration := 10
    connections := 50
    rate := none
    requests := { total := 100, successful := 90, failed := 10 }
    throughput := { rps := 10, bytesPerSecond := 100, totalBytes := 1000 }
    latency :=
      { min := 1, max := 20, mean := 5, stddev := 1
        p50 := 4, p75 := 6, p90 := 8, p95 := 10, p99 := 12, p999 := 15 }
    errors := { timeouts := 0, connectionErrors := 0, byStatusCode := [(500, 10)] }
    timestamp := "2026-01-01T00:00:00Z" }

/-- A concrete threshold configuration for the C8 witness: p99
threshold of 10 ms, no error-rate threshold. -/
def sampleConfig : ThresholdedConfig :=
  { thresholds := some { p99 := some 10, p95 := none, errorRate := none, minRps := none } }

/-- A concrete snapshot for the C4 witness (one failure by timeout). -/
def sampleSnapshotA : MetricsSnapshot :=
  { workerId := 0, requests := 2, successful := 1, failed := 1, bytes := 100
    latencies := [1500], errors := { timeouts := 1, connectionErrors := 0, byStatusCode := [] } }

/-- A second concrete snapshot for the C4 witness (one HTTP 500). -/
def sampleSnapshotB : MetricsSnapshot :=
  { workerId := 1, requests := 3, successful := 2, failed := 1, bytes := 50
    latencies := [2500, 700]
    errors := { timeouts := 0, connectionErrors := 0, byStatusCode := [(500, 1)] } }


/-! ## Lemmas about compare mode -/

lemma foldl_compareStep_acc (l : List (String × UrlOutcome)) :
    ∀ acc : List CompareRow, l.foldl compareStep acc = acc ++ l.foldl compareStep [] := by
  induction l with
  | nil => intro acc; simp
  | cons e l ih =>
      intro acc
      rw [List.foldl_cons, List.foldl_cons, ih, ih (compareStep [] e)]
      cases h : e.2 <;> simp [compareStep, h]

lemma compareResults_nil_iff (outcomes : List (String × UrlOutcome)) :
    compareResults outcomes = [] ↔ ∀ e ∈ outcomes, ¬ e.2.isOk := by
  induction outcomes with
  | nil => simp [compareResults]
  | cons e l ih =>
      rw [compareResults, List.foldl_cons, foldl_compareStep_acc]
      rw [compareResults] at ih
      cases h : e.2 <;>
        simp [compareStep, h, ih, UrlOutcome.isOk]

/-! ## Lemmas about the request loop -/

lemma sumByStatus_bump (l : List (ℕ × ℕ)) (code : ℕ) :
    sumByStatus (bumpStatus l code) = sumByStatus l + 1 := by
  induction l with
  | nil => simp [bumpStatus, sumByStatus]
  | cons e l ih =>
      obtain ⟨c, n⟩ := e
      by_cases h : c = code <;> simp [bumpStatus, h, sumByStatus] at ih ⊢ <;> omega

lemma lookupStatus_bump_self (l : List (ℕ × ℕ)) (code : ℕ) :
    lookupStatus (bumpStatus l code) code = lookupStatus l code + 1 := by
  induction l with
  | nil => simp [bumpStatus, lookupStatus, List.find?]
  | cons e l ih =>
      obtain ⟨c, n⟩ := e
      by_cases h : c = code <;>
        simp [bumpStatus, h, lookupStatus, List.find?] at ih ⊢
      · simp [ih]


lemma executeRequest_accounted (s : LoopState) (o : RequestOutcome)
    (h : s.accounted) : (executeRequest s o).accounted := by
  obtain ⟨h1, h2⟩ := h
  cases o with
  | response statusCode bytes latencyUs =>
      by_cases hs : statusCode ∈ SUCCESS_STATUS_CODES <;>
        simp [executeRequest, hs, LoopState.accounted, sumByStatus_bump] <;> omega
  | thrown isTimeout =>
      cases isTimeout <;>
        simp [executeRequest, LoopState.accounted] <;> omega

lemma foldl_executeRequest_accounted (outcomes : List RequestOutcome) :
    ∀ s : LoopState, s.accounted → (outcomes.foldl executeRequest s).accounted := by
  induction outcomes with
  | nil => intro s h; simpa using h
  | cons o l ih => intro s h; exact ih _ (executeRequest_accounted s o h)

/-! ## Lemmas about the histogram -/

lemma record_min_eq (h : Histogram) (v : ℚ) : (h.record v).min = Min.min h.min v := by
  simp only [Histogram.record]
  rcases lt_trichotomy v h.min with hlt | heq | hgt
  · rw [if_pos hlt, min_eq_right hlt.le]
  · rw [heq, if_neg (lt_irrefl _), min_self]
  · rw [if_neg (not_lt.mpr hgt.le), min_eq_left hgt.le]

lemma record_max_eq (h : Histogram) (v : ℚ) : (h.record v).max = Max.max h.max v := by
  simp only [Histogram.record]
  rcases lt_trichotomy v h.max with hlt | heq | hgt
  · rw [if_neg (not_lt.mpr hlt.le), max_eq_left hlt.le]
  · rw [heq, if_neg (lt_irrefl _), max_self]
  · rw [if_pos hgt, max_eq_right hgt.le]

lemma record_count (h : Histogram) (v : ℚ) : (h.record v).count = h.count + 1 := rfl

lemma record_sum (h : Histogram) (v : ℚ) : (h.record v).sum = h.sum + v := rfl

/-- For a nonnegative sample, the write lands in a bucket index in
`[0, HISTOGRAM_BUCKETS - 1]`, so the bucket total grows by one. -/
lemma record_countedBuckets (h : Histogram) (v : ℚ) (hv : 0 ≤ v) :
    (h.record v).countedBuckets HISTOGRAM_BUCKETS
      = h.countedBuckets HISTOGRAM_BUCKETS + 1 := by
  set si : ℤ :=
    Min.min ⌊Min.min v (MAX_LATENCY_US - 1) / BUCKET_WIDTH_US⌋ ((HISTOGRAM_BUCKETS : ℤ) - 1)
    with hsi
  have h0 : (0 : ℤ) ≤ si := by
    rw [hsi]
    refine le_min (Int.floor_nonneg.mpr (div_nonneg (le_min hv (by norm_num [MAX_LATENCY_US]))
      (by norm_num [BUCKET_WIDTH_US, MAX_LATENCY_US, HISTOGRAM_BUCKETS]))) (by norm_num [HISTOGRAM_BUCKETS])
  have hlt : si.toNat < HISTOGRAM_BUCKETS := by
    have : si ≤ (HISTOGRAM_BUCKETS : ℤ) - 1 := by rw [hsi]; exact min_le_right _ _
    omega
  have hbkt : (h.record v).buckets
      = fun i => h.buckets i + if i = si.toNat then 1 else 0 := by
    funext i
    show (if 0 ≤ si ∧ i = si.toNat then h.buckets i + 1 else h.buckets i) = _
    by_cases hi : i = si.toNat
    · rw [if_pos ⟨h0, hi⟩, if_pos hi]
    · rw [if_neg (fun hc => hi hc.2), if_neg hi, Nat.add_zero]
  unfold Histogram.countedBuckets
  rw [hbkt]
  rw [Finset.sum_add_distrib, Finset.sum_ite_eq' (Finset.range HISTOGRAM_BUCKETS) si.toNat
    (fun _ => 1)]
  rw [if_pos (Finset.mem_range.mpr hlt)]

lemma foldl_record_counted (l : List ℚ) :
    ∀ h : Histogram, (∀ v ∈ l, 0 ≤ v) →
      (l.foldl Histogram.record h).countedBuckets HISTOGRAM_BUCKETS
          = h.countedBuckets HISTOGRAM_BUCKETS + l.length ∧
        (l.foldl Histogram.record h).count = h.count + l.length := by
  induction l with
  | nil => intro h _; simp
  | cons v l ih =>
      intro h hl
      obtain ⟨hc1, hc2⟩ := ih (h.record v) (fun u hu => hl u (List.mem_cons_of_mem _ hu))
      refine ⟨?_, ?_⟩
      · rw [List.foldl_cons, hc1, record_countedBuckets h v (hl v (List.mem_cons_self _ _))]
        simp [Nat.add_assoc, Nat.add_comm 1]
      · rw [List.foldl_cons, hc2, record_count]
        simp [Nat.add_assoc, Nat.add_comm 1]


lemma record_sumBounded (h : Histogram) (v : ℚ) (hb : h.sumBounded) :
    (h.record v).sumBounded := by
  obtain ⟨h1, h2⟩ := hb
  have hc : (0 : ℚ) ≤ (h.count : ℚ) := Nat.cast_nonneg _
  constructor
  · rw [record_count, record_sum, record_min_eq]
    push_cast
    have ha : (h.count : ℚ) * Min.min h.min v ≤ (h.count : ℚ) * h.min :=
      mul_le_mul_of_nonneg_left (min_le_left _ _) hc
    have hbv : Min.min h.min v ≤ v := min_le_right _ _
    linarith
  · rw [record_count, record_sum, record_max_eq]
    push_cast
    have ha : (h.count : ℚ) * h.max ≤ (h.count : ℚ) * Max.max h.max v :=
      mul_le_mul_of_nonneg_left (le_max_left _ _) hc
    have hbv : v ≤ Max.max h.max v := le_max_right _ _
    linarith

lemma foldl_record_sumBounded (l : List ℚ) :
    ∀ h : Histogram, h.sumBounded → (l.foldl Histogram.record h).sumBounded := by
  induction l with
  | nil => intro h hb; simpa using hb
  | cons v l ih => intro h hb; exact ih _ (record_sumBounded h v hb)

lemma foldl_record_max (l : List ℚ) :
    ∀ h : Histogram,
      h.max ≤ (l.foldl Histogram.record h).max ∧
        ∀ v ∈ l, v ≤ (l.foldl Histogram.record h).max := by
  induction l with
  | nil => intro h; simp
  | cons v l ih =>
      intro h
      obtain ⟨hm, hall⟩ := ih (h.record v)
      rw [record_max_eq] at hm
      refine ⟨le_trans (le_max_left _ _) hm, ?_⟩
      intro u hu
      rcases List.mem_cons.mp hu with rfl | hu'
      · exact le_trans (le_max_right _ _) hm
      · exact hall u hu'

/-! ## Claim theorems -/

/-- C10: in compare mode thresholds are never evaluated:
`compareCommand` exits with `EXIT_CODES.SUCCESS` (0) exactly when at
least one URL passed the reachability check and benchmarked without
throwing, skips the other URLs, exits with `EXIT_CODES.ERROR` (2)
exactly when no URL produced a result, and never returns the
threshold exit code 1. -/
theorem compareCommand_exit_codes (outcomes : List (String × UrlOutcome)) :
    (compareExit outcomes = EXIT_SUCCESS ↔ ∃ e ∈ outcomes, e.2.isOk) ∧
    (compareExit outcomes = EXIT_ERROR ↔ ∀ e ∈ outcomes, ¬ e.2.isOk) ∧
    compareExit outcomes ≠ EXIT_THRESHOLD_EXCEEDED := by
  have hiff := compareResults_nil_iff outcomes
  unfold compareExit EXIT_SUCCESS EXIT_ERROR EXIT_THRESHOLD_EXCEEDED
  by_cases h : compareResults outcomes = []
  · rw [if_pos (by simp [h])]
    rw [h] at hiff
    simp only [true_iff] at hiff
    refine ⟨?_, by simpa using hiff, by omega⟩
    constructor
    · intro h2; omega
    · intro ⟨e, he, hok⟩; exact absurd hok (hiff e he)
  · rw [if_neg (fun hlen => h (List.length_eq_zero.mp hlen))]
    have hex : ∃ e ∈ outcomes, e.2.isOk := by
      by_contra hno
      push_neg at hno
      exact h (hiff.mpr hno)
    exact ⟨⟨fun _ => hex, fun _ => rfl⟩,
      ⟨fun h02 => absurd h02 (by omega), fun hall => absurd (hiff.mpr hall) h⟩,
      by omega⟩

/-- C1: the code violates the claim.  `getSnapshot` copies the
worker's *cumulative* state (nothing is reset between snapshots), and
the orchestrator feeds every periodic snapshot *and* the final
snapshot to `MetricsAggregator.addSnapshot`.  In a run where a worker
executes one request, emits a periodic snapshot, executes a second
request and emits its final snapshot, the aggregated
`result.requests.total` is 3 although the worker executed 2 requests,
and the final snapshot's latency list contains the sample recorded
before the previous snapshot. -/
theorem snapshot_aggregation_overcounts :
    (let s1 := executeRequest createInitialState (.response 200 10 5)
     let snap1 := getSnapshot 0 s1
     let s2 := executeRequest s1 (.response 200 12 7)
     let snap2 := getSnapshot 0 s2
     let agg := (AggState.init.addSnapshot snap1).addSnapshot snap2
     agg.totalRequests = 3 ∧ s2.requests = 2 ∧ snap2.latencies = [5, 7] ∧
       agg.totalRequests ≠ s2.requests) := by
  refine ⟨?_, ?_, ?_, ?_⟩ <;> decide

/-- C6: after any sequence of completed request cycles, a response
with a status in the success set increments `successful`, any other
response increments `failed` and `byStatusCode[status]`, an exception
increments `failed` and exactly one of `timeouts` /
`connectionErrors` (the timeout counter exactly when the error is a
timeout error), and the tallies satisfy
`timeouts + connectionErrors + Σ byStatusCode = failed` with
`successful + failed = requests`. -/
theorem requestLoop_error_accounting (outcomes : List RequestOutcome) :
    (let s := outcomes.foldl executeRequest createInitialState
     s.errors.timeouts + s.errors.connectionErrors + sumByStatus s.errors.byStatusCode
         = s.failed ∧
       s.successful + s.failed = s.requests) ∧
    (∀ (s : LoopState) (c b : ℕ) (lt : ℚ),
       (executeRequest s (.response c b lt)).successful
           = s.successful + (if c ∈ SUCCESS_STATUS_CODES then 1 else 0) ∧
       (executeRequest s (.response c b lt)).failed
           = s.failed + (if c ∈ SUCCESS_STATUS_CODES then 0 else 1) ∧
       (executeRequest s (.response c b lt)).errors.timeouts = s.errors.timeouts ∧
       (executeRequest s (.response c b lt)).errors.connectionErrors
           = s.errors.connectionErrors ∧
       lookupStatus (executeRequest s (.response c b lt)).errors.byStatusCode c
           = lookupStatus s.errors.byStatusCode c
               + (if c ∈ SUCCESS_STATUS_CODES then 0 else 1)) ∧
    (∀ (s : LoopState) (isTimeout : Bool),
       (executeRequest s (.thrown isTimeout)).failed = s.failed + 1 ∧
       (executeRequest s (.thrown isTimeout)).errors.timeouts
           = s.errors.timeouts + (if isTimeout then 1 else 0) ∧
       (executeRequest s (.thrown isTimeout)).errors.connectionErrors
           = s.errors.connectionErrors + (if isTimeout then 0 else 1) ∧
       (executeRequest s (.thrown isTimeout)).errors.byStatusCode
           = s.errors.byStatusCode) := by
  refine ⟨?_, ?_, ?_⟩
  · have : (createInitialState).accounted := by
      constructor <;> simp [createInitialState, sumByStatus]
    exact foldl_executeRequest_accounted outcomes createInitialState this
  · intro s c b lt
    by_cases hs : c ∈ SUCCESS_STATUS_CODES <;>
      simp [executeRequest, hs, lookupStatus_bump_self]
  · intro s isTimeout
    cases isTimeout <;> simp [executeRequest]

/-- C8: threshold checking exits with code 1 exactly when the p99
threshold is configured and strictly exceeded, or the error-rate
threshold is configured and `failed / total` strictly exceeds it
(with the source's `total > 0` guard equivalent to the fraction test
because an assembled result has `failed ≤ total` and a configured
error-rate threshold is nonnegative); the p99 branch is checked
first; otherwise the exit code is 0. -/
theorem checkThresholds_spec (result : BenchResult) (config : ThresholdedConfig)
    (hfail : result.requests.failed ≤ result.requests.total)
    (her : ∀ t er, config.thresholds = some t → t.errorRate = some er → 0 ≤ er) :
    (checkThresholds result config = EXIT_THRESHOLD_EXCEEDED ↔
       ∃ t, config.thresholds = some t ∧
         ((∃ v, t.p99 = some v ∧ result.latency.p99 > v) ∨
          (∃ er, t.errorRate = some er ∧
             (result.requests.failed : ℚ) / (result.requests.total : ℚ) > er))) ∧
    (checkThresholds result config = EXIT_SUCCESS ↔
       ¬ ∃ t, config.thresholds = some t ∧
         ((∃ v, t.p99 = some v ∧ result.latency.p99 > v) ∨
          (∃ er, t.errorRate = some er ∧
             (result.requests.failed : ℚ) / (result.requests.total : ℚ) > er))) ∧
    (∀ t v, config.thresholds = some t → t.p99 = some v → result.latency.p99 > v →
       checkThresholds result config = EXIT_THRESHOLD_EXCEEDED) := by
  rcases hc : config.thresholds with _ | t
  · simp [checkThresholds, hc, EXIT_SUCCESS, EXIT_THRESHOLD_EXCEEDED]
  · have herr := fun er he => her t er hc he
    unfold checkThresholds EXIT_SUCCESS EXIT_THRESHOLD_EXCEEDED
    rw [hc]
    dsimp only
    split_ifs with hA hB
    · rcases h9 : t.p99 with _ | v
      · rw [h9] at hA; simp at hA
      · rw [h9] at hA
        simp only [decide_eq_true_eq] at hA
        have hRHS : ∃ t', some t = some t' ∧
            ((∃ v, t'.p99 = some v ∧ result.latency.p99 > v) ∨
             (∃ er, t'.errorRate = some er ∧
                (result.requests.failed : ℚ) / (result.requests.total : ℚ) > er)) :=
          ⟨t, rfl, Or.inl ⟨v, h9, hA⟩⟩
        exact ⟨⟨fun _ => hRHS, fun _ => rfl⟩,
          ⟨fun h10 => absurd h10 (by decide), fun hn => absurd hRHS hn⟩,
          fun _ _ _ _ _ => rfl⟩
    · rcases he : t.errorRate with _ | er
      · rw [he] at hB; simp at hB
      · rw [he] at hB
        simp only [decide_eq_true_eq] at hB
        have hRHS : ∃ t', some t = some t' ∧
            ((∃ v, t'.p99 = some v ∧ result.latency.p99 > v) ∨
             (∃ er, t'.errorRate = some er ∧
                (result.requests.failed : ℚ) / (result.requests.total : ℚ) > er)) :=
          ⟨t, rfl, Or.inr ⟨er, he, hB.2⟩⟩
        exact ⟨⟨fun _ => hRHS, fun _ => rfl⟩,
          ⟨fun h10 => absurd h10 (by decide), fun hn => absurd hRHS hn⟩,
          fun _ _ _ _ _ => rfl⟩
    · have hnRHS : ¬ ∃ t', some t = some t' ∧
          ((∃ v, t'.p99 = some v ∧ result.latency.p99 > v) ∨
           (∃ er, t'.errorRate = some er ∧
              (result.requests.failed : ℚ) / (result.requests.total : ℚ) > er)) := by
        rintro ⟨t', ht', hdis⟩
        rw [Option.some.injEq] at ht'
        subst ht'
        rcases hdis with ⟨v, h9, hgt⟩ | ⟨er, he, hfr⟩
        · rw [h9] at hA
          simp only [decide_eq_true_eq] at hA
          exact hA hgt
        · rw [he] at hB
          simp only [decide_eq_true_eq] at hB
          push_neg at hB
          by_cases hT : result.requests.total > 0
          · exact absurd hfr (not_lt.mpr (hB hT))
          · have h0 : result.requests.total = 0 := by omega
            have hfl : result.requests.failed = 0 := by omega
            rw [h0, hfl] at hfr
            norm_num at hfr
            exact absurd hfr (not_lt.mpr (herr er he))
      refine ⟨⟨fun h01 => absurd h01 (by decide), fun h => absurd h hnRHS⟩,
        ⟨fun _ => hnRHS, fun _ => rfl⟩, ?_⟩
      intro t' v ht' h9 hgt
      exact absurd ⟨t', ht', Or.inl ⟨v, h9, hgt⟩⟩ hnRHS



/-- Witness for C8 at a concrete result and configuration. -/
theorem checkThresholds_spec_witness :
    (sampleResult.requests.failed ≤ sampleResult.requests.total ∧
       ∀ t er, sampleConfig.thresholds = some t → t.errorRate = some er → 0 ≤ er) ∧
    ((checkThresholds sampleResult sampleConfig = EXIT_THRESHOLD_EXCEEDED ↔
       ∃ t, sampleConfig.thresholds = some t ∧
         ((∃ v, t.p99 = some v ∧ sampleResult.latency.p99 > v) ∨
          (∃ er, t.errorRate = some er ∧
             (sampleResult.requests.failed : ℚ) / (sampleResult.requests.total : ℚ) > er))) ∧
     (checkThresholds sampleResult sampleConfig = EXIT_SUCCESS ↔
       ¬ ∃ t, sampleConfig.thresholds = some t ∧
         ((∃ v, t.p99 = some v ∧ sampleResult.latency.p99 > v) ∨
          (∃ er, t.errorRate = some er ∧
             (sampleResult.requests.failed : ℚ) / (sampleResult.requests.total : ℚ) > er))) ∧
     (∀ t v, sampleConfig.thresholds = some t → t.p99 = some v →
        sampleResult.latency.p99 > v →
        checkThresholds sampleResult sampleConfig = EXIT_THRESHOLD_EXCEEDED)) := by
  constructor
  · constructor
    · decide
    · intro t er ht he
      simp only [sampleConfig, Option.some.injEq] at ht
      subst ht
      simp at he
  · exact checkThresholds_spec sampleResult sampleConfig (by decide)
      (by intro t er ht he
          simp only [sampleConfig, Option.some.injEq] at ht
          subst ht
          simp at he)

/-- C9: an unrecognized `--output` value is silently ignored — the
parsed flags keep the default `console` format, `getReporter` falls
through to the console reporter, and the flags still convert to a
valid configuration (no error, so no exit code 2 from parsing). -/
theorem output_flag_unrecognized (pInt pFloat : String → ℚ) (s : String)
    (hs : s ≠ "console" ∧ s ≠ "json" ∧ s ≠ "html" ∧ s ≠ "csv") :
    (parseFlags pInt pFloat ["http://localhost:3000", "--output", s]).output = "console" ∧
    getReporter (parseFlags pInt pFloat ["http://localhost:3000", "--output", s]).output
        = Reporter.console ∧
    ∃ cfg, flagsToConfig (parseFlags pInt pFloat ["http://localhost:3000", "--output", s])
        = some cfg ∧ cfg.output = "console" := by
  have hflags : parseFlags pInt pFloat ["http://localhost:3000", "--output", s]
      = { initialFlags with urls := ["http://localhost:3000"] } := by
    simp [parseFlags, parseArgsLoop, initialFlags, startsWithDash,
      hs.1, hs.2.1, hs.2.2.1, hs.2.2.2]
  rw [hflags]
  exact ⟨rfl, by simp [getReporter, initialFlags], ⟨_, rfl, rfl⟩⟩

/-- Witness for C9 at the concrete unrecognized format `"xml"`. -/
theorem output_flag_unrecognized_witness :
    ("xml" ≠ "console" ∧ "xml" ≠ "json" ∧ "xml" ≠ "html" ∧ "xml" ≠ "csv") ∧
    ((parseFlags (fun _ => 0) (fun _ => 0)
        ["http://localhost:3000", "--output", "xml"]).output = "console" ∧
     getReporter (parseFlags (fun _ => 0) (fun _ => 0)
        ["http://localhost:3000", "--output", "xml"]).output = Reporter.console ∧
     ∃ cfg, flagsToConfig (parseFlags (fun _ => 0) (fun _ => 0)
        ["http://localhost:3000", "--output", "xml"]) = some cfg ∧ cfg.output = "console") :=
  ⟨by decide, output_flag_unrecognized (fun _ => 0) (fun _ => 0) "xml" (by decide)⟩


/-- C2 counterexample: `record` does not update `min` / `max` / `sum`
with the clamped value and does not clamp below at 0.  Recording
20 000 000 µs (twice `L_max`) leaves `max = 20 000 000 > L_max − 1`,
and recording `−1` increments `count` but no bucket, so
`Σ buckets = count` fails for that call. -/
theorem record_clamp_counterexample :
    (Histogram.empty.record 20000000).max = 20000000 ∧
    ¬ ((Histogram.empty.record 20000000).max ≤ MAX_LATENCY_US - 1) ∧
    (Histogram.empty.record (-1)).count = 1 ∧
    (Histogram.empty.record (-1)).countedBuckets HISTOGRAM_BUCKETS = 0 := by
  have hb : (Histogram.empty.record (-1)).buckets = Histogram.empty.buckets := by
    funext i
    show (if 0 ≤ Min.min ⌊Min.min (-1 : ℚ) (MAX_LATENCY_US - 1) / BUCKET_WIDTH_US⌋
            ((HISTOGRAM_BUCKETS : ℤ) - 1) ∧
          i = (Min.min ⌊Min.min (-1 : ℚ) (MAX_LATENCY_US - 1) / BUCKET_WIDTH_US⌋
            ((HISTOGRAM_BUCKETS : ℤ) - 1)).toNat
        then Histogram.empty.buckets i + 1 else Histogram.empty.buckets i)
        = Histogram.empty.buckets i
    rw [if_neg]
    rintro ⟨h0, _⟩
    have hw : BUCKET_WIDTH_US = 1000 := by
      norm_num [BUCKET_WIDTH_US, MAX_LATENCY_US, HISTOGRAM_BUCKETS]
    have h1 : Min.min (-1 : ℚ) (MAX_LATENCY_US - 1) = -1 :=
      min_eq_left (by norm_num [MAX_LATENCY_US])
    rw [h1, hw] at h0
    have h2 : ⌊(-1 : ℚ) / 1000⌋ = -1 := by
      rw [Int.floor_eq_iff]
      norm_num
    rw [h2] at h0
    have h3 : Min.min (-1 : ℤ) ((HISTOGRAM_BUCKETS : ℤ) - 1) = -1 :=
      min_eq_left (by norm_num [HISTOGRAM_BUCKETS])
    rw [h3] at h0
    norm_num at h0
  refine ⟨?_, ?_, rfl, ?_⟩
  · show (if (20000000 : ℚ) > Histogram.empty.max then (20000000 : ℚ)
        else Histogram.empty.max) = 20000000
    rw [if_pos (by norm_num [Histogram.empty])]
  · rw [record_max_eq]
    norm_num [Histogram.empty, MAX_LATENCY_US]
  · unfold Histogram.countedBuckets
    rw [hb]
    simp [Histogram.empty]

/-- C2 (amended): `record(v)` clamps `v` only for the bucket index
(values below 0 increment no bucket at all) and updates `count`,
`sum`, `min`, `max` with the raw value, so `max` is the largest raw
value and may exceed `L_max − 1`; after any sequence of `record`
calls with nonnegative values, `Σ buckets = count` and
`min ≤ mean ≤ max`, and every recorded value is bounded by the
reported maximum. -/
theorem record_invariants (l : List ℚ) (hl : ∀ v ∈ l, 0 ≤ v) :
    (let h := l.foldl Histogram.record Histogram.empty
     h.countedBuckets HISTOGRAM_BUCKETS = h.count ∧
       (h.count ≠ 0 → h.getMin ≤ h.getMean ∧ h.getMean ≤ h.getMax) ∧
       (∀ v ∈ l, v ≤ h.getMax) ∧
       (∀ (g : Histogram) (v : ℚ),
          (g.record v).sum = g.sum + v ∧ (g.record v).min = Min.min g.min v ∧
            (g.record v).max = Max.max g.max v)) := by
  intro h
  obtain ⟨hc1, hc2⟩ := foldl_record_counted l Histogram.empty hl
  have hcount : h.count = l.length := by
    rw [hc2]; simp [Histogram.empty]
  refine ⟨?_, ?_, ?_, ?_⟩
  · rw [hc1, hcount]
    simp [Histogram.countedBuckets, Histogram.empty]
  · intro hne
    have hb := foldl_record_sumBounded l Histogram.empty
      (by constructor <;> simp [Histogram.empty])
    obtain ⟨hb1, hb2⟩ := hb
    have hpos : (0 : ℚ) < (h.count : ℚ) := by
      have : 0 < h.count := Nat.pos_of_ne_zero hne
      exact_mod_cast this
    constructor
    · rw [Histogram.getMin, Histogram.getMean, if_pos (Nat.pos_of_ne_zero hne),
        if_pos (Nat.pos_of_ne_zero hne)]
      rw [le_div_iff₀ hpos]
      linarith [hb1]
    · rw [Histogram.getMean, Histogram.getMax, if_pos (Nat.pos_of_ne_zero hne)]
      rw [div_le_iff₀ hpos]
      linarith [hb2]
  · intro v hv
    exact (foldl_record_max l Histogram.empty).2 v hv
  · intro g v
    exact ⟨record_sum g v, record_min_eq g v, record_max_eq g v⟩

/-- Witness for C2 (amended) at the concrete sample list
`[1500, 20000000]`. -/
theorem record_invariants_witness :
    (∀ v ∈ [(1500 : ℚ), 20000000], 0 ≤ v) ∧
    (let h := [(1500 : ℚ), 20000000].foldl Histogram.record Histogram.empty
     h.countedBuckets HISTOGRAM_BUCKETS = h.count ∧
       (h.count ≠ 0 → h.getMin ≤ h.getMean ∧ h.getMean ≤ h.getMax) ∧
       (∀ v ∈ [(1500 : ℚ), 20000000], v ≤ h.getMax) ∧
       (∀ (g : Histogram) (v : ℚ),
          (g.record v).sum = g.sum + v ∧ (g.record v).min = Min.min g.min v ∧
            (g.record v).max = Max.max g.max v)) :=
  ⟨by decide, record_invariants [(1500 : ℚ), 20000000] (by decide)⟩


/-! ## Lemmas about merge -/

lemma merge_buckets (A B : Histogram) (i : ℕ) :
    (A.merge B).buckets i
      = if i < HISTOGRAM_BUCKETS then A.buckets i + B.buckets i else A.buckets i := rfl

lemma merge_count (A B : Histogram) : (A.merge B).count = A.count + B.count := rfl

lemma merge_sum (A B : Histogram) : (A.merge B).sum = A.sum + B.sum := rfl

lemma merge_min (A B : Histogram) :
    (A.merge B).min = if B.count > 0 ∧ B.min < A.min then B.min else A.min := rfl

lemma merge_max (A B : Histogram) :
    (A.merge B).max = if B.count > 0 ∧ B.max > A.max then B.max else A.max := rfl

lemma ite_lt_eq_min (m x : ℚ) : (if x < m then x else m) = Min.min m x := by
  rcases lt_trichotomy x m with h | h | h
  · rw [if_pos h, min_eq_right h.le]
  · rw [h, if_neg (lt_irrefl _), min_self]
  · rw [if_neg (not_lt.mpr h.le), min_eq_left h.le]

lemma ite_gt_eq_max (m x : ℚ) : (if x > m then x else m) = Max.max m x := by
  rcases lt_trichotomy m x with h | h | h
  · rw [if_pos h, max_eq_right h.le]
  · rw [h, if_neg (lt_irrefl _), max_self]
  · rw [if_neg (not_lt.mpr h.le), max_eq_left h.le]

lemma merge_swap (A B C : Histogram) :
    (A.merge B).merge C = (A.merge C).merge B := by
  refine Histogram.ext ?_ ?_ ?_ ?_ ?_
  · funext i
    simp only [merge_buckets]
    split_ifs <;> omega
  · simp only [merge_count]; omega
  · by_cases hBc : B.count > 0 <;> by_cases hCc : C.count > 0 <;>
      simp only [merge_min, merge_count, hBc, hCc, true_and, false_and, if_false]
    rw [ite_lt_eq_min, ite_lt_eq_min, ite_lt_eq_min, ite_lt_eq_min]
    exact min_right_comm _ _ _
  · by_cases hBc : B.count > 0 <;> by_cases hCc : C.count > 0 <;>
      simp only [merge_max, merge_count, hBc, hCc, true_and, false_and, if_false]
    rw [ite_gt_eq_max, ite_gt_eq_max, ite_gt_eq_max, ite_gt_eq_max]
    rw [max_assoc, max_comm B.max C.max, ← max_assoc]
  · simp only [merge_sum]; ring

lemma merge_assoc_wf (A B C : Histogram) (hA : A.WF) (hB : B.WF) (hC : C.WF) :
    A.merge (B.merge C) = (A.merge B).merge C := by
  obtain ⟨hAmax, hAmin, hAz⟩ := hA
  obtain ⟨hBmax, hBmin, hBz⟩ := hB
  obtain ⟨hCmax, hCmin, hCz⟩ := hC
  refine Histogram.ext ?_ ?_ ?_ ?_ ?_
  · funext i
    simp only [merge_buckets]
    split_ifs <;> omega
  · simp only [merge_count]; omega
  · by_cases hBc : B.count > 0 <;> by_cases hCc : C.count > 0 <;>
      simp only [merge_min, merge_count, hBc, hCc, true_and, false_and, if_false]
    · rw [ite_lt_eq_min, ite_lt_eq_min, ite_lt_eq_min]
      have : (B.count + C.count > 0) = True := by simp; omega
      simp only [this, true_and]
      rw [ite_lt_eq_min]
      exact (min_assoc _ _ _).symm
    · have : (B.count + C.count > 0) = True := by simp; omega
      simp only [this, true_and]
    · obtain ⟨hBm, -⟩ := hBz (by omega)
      have : (B.count + C.count > 0) = True := by simp; omega
      simp only [this, true_and, hBm]
      rcases lt_trichotomy C.min MAX_SAFE_INTEGER with h | h | h
      · rw [if_pos h]
      · rw [h, if_neg (lt_irrefl _), if_neg (not_lt.mpr hAmin)]
      · exact absurd h (not_lt.mpr hCmin)
    · have : (B.count + C.count > 0) = False := by simp; omega
      simp only [this, false_and, if_false]
  · by_cases hBc : B.count > 0 <;> by_cases hCc : C.count > 0 <;>
      simp only [merge_max, merge_count, hBc, hCc, true_and, false_and, if_false]
    · rw [ite_gt_eq_max, ite_gt_eq_max, ite_gt_eq_max]
      have : (B.count + C.count > 0) = True := by simp; omega
      simp only [this, true_and]
      rw [ite_gt_eq_max]
      exact (max_assoc _ _ _).symm
    · have : (B.count + C.count > 0) = True := by simp; omega
      simp only [this, true_and]
    · obtain ⟨-, hBm⟩ := hBz (by omega)
      have : (B.count + C.count > 0) = True := by simp; omega
      simp only [this, true_and, hBm]
      rcases lt_trichotomy (0 : ℚ) C.max with h | h | h
      · rw [if_pos h]
      · rw [← h, if_neg (lt_irrefl _), if_neg (not_lt.mpr hAmax)]
      · exact absurd h (not_lt.mpr hCmax)
    · have : (B.count + C.count > 0) = False := by simp; omega
      simp only [this, false_and, if_false]
  · simp only [merge_sum]; ring


/-- C3: for histograms in reachable states (all share the fixed
bucket count and width), `merge` is order-independent: merging B then
C into A equals merging C then B into A (this swap law holds for all
states), merge is associative, and the percentiles of the two merge
orders are identical. -/
theorem histogram_merge_comm_assoc (A B C : Histogram)
    (hA : A.WF) (hB : B.WF) (hC : C.WF) :
    (A.merge B).merge C = (A.merge C).merge B ∧
    A.merge (B.merge C) = (A.merge B).merge C ∧
    (∀ p, ((A.merge B).merge C).getPercentile p
        = ((A.merge C).merge B).getPercentile p) := by
  refine ⟨merge_swap A B C, merge_assoc_wf A B C hA hB hC, fun p => ?_⟩
  rw [merge_swap A B C]

/-- Witness for C3 at three concrete histogram states. -/
theorem histogram_merge_comm_assoc_witness :
    ((Histogram.empty.record 1500).WF ∧ (Histogram.empty.record 2500).WF ∧
       Histogram.empty.WF) ∧
    (((Histogram.empty.record 1500).merge (Histogram.empty.record 2500)).merge
          Histogram.empty
        = ((Histogram.empty.record 1500).merge Histogram.empty).merge
          (Histogram.empty.record 2500) ∧
     (Histogram.empty.record 1500).merge
          ((Histogram.empty.record 2500).merge Histogram.empty)
        = ((Histogram.empty.record 1500).merge (Histogram.empty.record 2500)).merge
          Histogram.empty ∧
     (∀ p, (((Histogram.empty.record 1500).merge (Histogram.empty.record 2500)).merge
            Histogram.empty).getPercentile p
        = (((Histogram.empty.record 1500).merge Histogram.empty).merge
            (Histogram.empty.record 2500)).getPercentile p)) :=
  ⟨⟨by decide, by decide, by decide⟩,
    histogram_merge_comm_assoc _ _ _ (by decide) (by decide) (by decide)⟩


/-! ## Lemmas about the aggregator -/

lemma record_comm (h : Histogram) (x y : ℚ) :
    (h.record x).record y = (h.record y).record x := by
  refine Histogram.ext ?_ ?_ ?_ ?_ ?_
  · funext i
    simp only [Histogram.record]
    split_ifs <;> omega
  · rfl
  · rw [record_min_eq, record_min_eq, record_min_eq, record_min_eq]
    exact min_right_comm _ _ _
  · rw [record_max_eq, record_max_eq, record_max_eq, record_max_eq]
    rw [max_assoc, max_comm x y, ← max_assoc]
  · rw [record_sum, record_sum, record_sum, record_sum]
    exact add_right_comm _ _ _

lemma foldl_record_perm {l₁ l₂ : List ℚ} (hp : l₁.Perm l₂) (h : Histogram) :
    l₁.foldl Histogram.record h = l₂.foldl Histogram.record h :=
  hp.foldl_eq' (fun x _ y _ z => record_comm z x y) h

lemma addStatusEntries_eq (l : List (ℕ × ℕ)) :
    ∀ m : ℕ → ℕ, addStatusEntries m l = fun c => m c + entrySum l c := by
  induction l with
  | nil => intro m; funext c; simp [addStatusEntries, entrySum]
  | cons e l ih =>
      intro m
      show addStatusEntries (fun c => if c = e.1 then m c + e.2 else m c) l = _
      rw [ih]
      funext c
      show (if c = e.1 then m c + e.2 else m c) + entrySum l c
          = m c + ((if c = e.1 then e.2 else 0) + entrySum l c)
      by_cases hc : c = e.1 <;> simp [hc]
      omega

lemma addSnapshot_comm (s : AggState) (a b : MetricsSnapshot) :
    (s.addSnapshot a).addSnapshot b = (s.addSnapshot b).addSnapshot a := by
  refine AggState.ext ?_ ?_ ?_ ?_ ?_ ?_ ?_ ?_
  · show b.latencies.foldl Histogram.record (a.latencies.foldl Histogram.record s.histogram)
        = a.latencies.foldl Histogram.record (b.latencies.foldl Histogram.record s.histogram)
    rw [← List.foldl_append, ← List.foldl_append]
    exact foldl_record_perm (List.perm_append_comm) s.histogram
  · show s.totalRequests + a.requests + b.requests
        = s.totalRequests + b.requests + a.requests
    omega
  · show s.successfulRequests + a.successful + b.successful
        = s.successfulRequests + b.successful + a.successful
    omega
  · show s.failedRequests + a.failed + b.failed
        = s.failedRequests + b.failed + a.failed
    omega
  · show s.totalBytes + a.bytes + b.bytes = s.totalBytes + b.bytes + a.bytes
    omega
  · show s.timeouts + a.errors.timeouts + b.errors.timeouts
        = s.timeouts + b.errors.timeouts + a.errors.timeouts
    omega
  · show s.connectionErrors + a.errors.connectionErrors + b.errors.connectionErrors
        = s.connectionErrors + b.errors.connectionErrors + a.errors.connectionErrors
    omega
  · show addStatusEntries (addStatusEntries s.statusCodes a.errors.byStatusCode)
          b.errors.byStatusCode
        = addStatusEntries (addStatusEntries s.statusCodes b.errors.byStatusCode)
          a.errors.byStatusCode
    rw [addStatusEntries_eq, addStatusEntries_eq, addStatusEntries_eq, addStatusEntries_eq]
    funext c
    show s.statusCodes c + entrySum a.errors.byStatusCode c + entrySum b.errors.byStatusCode c
        = s.statusCodes c + entrySum b.errors.byStatusCode c + entrySum a.errors.byStatusCode c
    omega

/-- C4: feeding the aggregator any permutation of a finite list of
snapshots produces the same aggregator state and hence the same
`getMetrics` output — histogram recording, counter addition and
per-status-code map union are order-independent. -/
theorem aggregator_perm_invariant (sqrtFn : ℚ → ℚ) (l₁ l₂ : List MetricsSnapshot)
    (hp : l₁.Perm l₂) :
    l₁.foldl AggState.addSnapshot AggState.init
        = l₂.foldl AggState.addSnapshot AggState.init ∧
    (l₁.foldl AggState.addSnapshot AggState.init).getMetrics sqrtFn
        = (l₂.foldl AggState.addSnapshot AggState.init).getMetrics sqrtFn := by
  have heq := hp.foldl_eq' (fun a _ b _ s => addSnapshot_comm s a b) AggState.init
  exact ⟨heq, by rw [heq]⟩



/-- Witness for C4 at a concrete two-snapshot permutation. -/
theorem aggregator_perm_invariant_witness :
    [sampleSnapshotA, sampleSnapshotB].Perm [sampleSnapshotB, sampleSnapshotA] ∧
    ([sampleSnapshotA, sampleSnapshotB].foldl AggState.addSnapshot AggState.init
        = [sampleSnapshotB, sampleSnapshotA].foldl AggState.addSnapshot AggState.init ∧
     ([sampleSnapshotA, sampleSnapshotB].foldl AggState.addSnapshot
          AggState.init).getMetrics (fun _ => 0)
        = ([sampleSnapshotB, sampleSnapshotA].foldl AggState.addSnapshot
          AggState.init).getMetrics (fun _ => 0)) :=
  ⟨List.Perm.swap sampleSnapshotB sampleSnapshotA [],
    aggregator_perm_invariant (fun _ => 0) _ _
      (List.Perm.swap sampleSnapshotB sampleSnapshotA [])⟩


/-! ## Lemmas about the percentile scan -/

lemma sum_range_shift (b : ℕ → ℕ) (i n : ℕ) :
    ∑ j ∈ Finset.range (n + 1), (b (i + j) : ℤ)
      = (b i : ℤ) + ∑ j ∈ Finset.range n, (b (i + 1 + j) : ℤ) := by
  rw [Finset.sum_range_succ']
  have hcong : ∑ j ∈ Finset.range n, (b (i + (j + 1)) : ℤ)
      = ∑ j ∈ Finset.range n, (b (i + 1 + j) : ℤ) :=
    Finset.sum_congr rfl (fun j _ => by
      have hidx : i + (j + 1) = i + 1 + j := by omega
      rw [hidx])
  rw [hcong, Nat.add_zero]
  exact add_comm _ _

lemma frac_mul_le (p c : ℚ) (hp1 : p ≤ 100) (hc : 0 ≤ c) : p / 100 * c ≤ c := by
  nlinarith [mul_nonneg (by linarith : (0 : ℚ) ≤ 1 - p / 100) hc]

/-- The scan loop of `getPercentile` returns the midpoint of the
first bucket whose cumulative count reaches the target, provided some
bucket within the remaining fuel does. -/
lemma percentileScan_found (b : ℕ → ℕ) (target : ℤ) :
    ∀ (fuel : ℕ) (i : ℕ) (cum : ℤ),
      (∃ k, k < fuel ∧ target ≤ cum + ∑ j ∈ Finset.range (k + 1), (b (i + j) : ℤ)) →
      ∃ k, k < fuel ∧
        percentileScan b target i cum fuel = (((i + k : ℕ) : ℚ) + 1/2) * BUCKET_WIDTH_US ∧
        target ≤ cum + ∑ j ∈ Finset.range (k + 1), (b (i + j) : ℤ) ∧
        ∀ m < k, cum + ∑ j ∈ Finset.range (m + 1), (b (i + j) : ℤ) < target := by
  intro fuel
  induction fuel with
  | zero =>
      rintro i cum ⟨k, hk, -⟩
      exact absurd hk (Nat.not_lt_zero k)
  | succ fuel ih =>
      rintro i cum ⟨k0, hk0, hle0⟩
      by_cases hhit : target ≤ cum + (b i : ℤ)
      · refine ⟨0, Nat.succ_pos _, ?_, ?_, ?_⟩
        · show (if target ≤ cum + (b i : ℤ) then ((i : ℚ) + 1/2) * BUCKET_WIDTH_US
              else percentileScan b target (i + 1) (cum + (b i : ℤ)) fuel) = _
          rw [if_pos hhit]
          norm_num
        · simpa using hhit
        · intro m hm
          exact absurd hm (Nat.not_lt_zero m)
      · push_neg at hhit
        have hex' : ∃ k, k < fuel ∧
            target ≤ (cum + (b i : ℤ)) + ∑ j ∈ Finset.range (k + 1), (b (i + 1 + j) : ℤ) := by
          rcases k0 with _ | k0'
          · rw [Finset.sum_range_one] at hle0
            simp only [Nat.add_zero] at hle0
            omega
          · refine ⟨k0', by omega, ?_⟩
            rw [sum_range_shift b i (k0' + 1)] at hle0
            omega
        obtain ⟨k', hk', heq, hle, hmin⟩ := ih (i + 1) (cum + (b i : ℤ)) hex'
        refine ⟨k' + 1, by omega, ?_, ?_, ?_⟩
        · show (if target ≤ cum + (b i : ℤ) then ((i : ℚ) + 1/2) * BUCKET_WIDTH_US
              else percentileScan b target (i + 1) (cum + (b i : ℤ)) fuel) = _
          rw [if_neg (not_le.mpr hhit), heq]
          have : i + 1 + k' = i + (k' + 1) := by omega
          rw [this]
        · rw [sum_range_shift b i (k' + 1)]
          omega
        · intro m hm
          rcases m with _ | m'
          · rw [Finset.sum_range_one]
            simpa using hhit
          · rw [sum_range_shift b i (m' + 1)]
            have := hmin m' (by omega)
            omega

/-- C7: `getPercentile(p)` for `p ∈ [0, 100]` on a histogram built by
`record` returns the midpoint `(i + 0.5)·w` of the first bucket `i`
whose cumulative count reaches `⌈(p/100)·count⌉`; on an empty
histogram every percentile, the mean and the standard deviation are
0, and the standard deviation is 0 whenever `count < 2`. -/
theorem getPercentile_spec (sqrtFn : ℚ → ℚ) (l : List ℚ) (hl : ∀ v ∈ l, 0 ≤ v)
    (p : ℚ) (hp0 : 0 ≤ p) (hp1 : p ≤ 100) :
    (let h := l.foldl Histogram.record Histogram.empty
     (∀ q : ℚ, h.count = 0 →
        h.getPercentile q = 0 ∧ h.getMean = 0 ∧ h.getStdDev sqrtFn = 0) ∧
     (h.count < 2 → h.getStdDev sqrtFn = 0) ∧
     (h.count ≠ 0 →
        ∃ i, i < HISTOGRAM_BUCKETS ∧
          h.getPercentile p = ((i : ℚ) + 1/2) * BUCKET_WIDTH_US ∧
          ⌈p / 100 * (h.count : ℚ)⌉ ≤ cumCount h.buckets i ∧
          ∀ j < i, cumCount h.buckets j < ⌈p / 100 * (h.count : ℚ)⌉)) := by
  intro h
  refine ⟨?_, ?_, ?_⟩
  · intro q hq
    refine ⟨?_, ?_, ?_⟩
    · simp [Histogram.getPercentile, hq]
    · simp [Histogram.getMean, hq]
    · simp [Histogram.getStdDev, hq]
  · intro h2
    simp [Histogram.getStdDev, h2]
  · intro hne
    have hsum : (h.countedBuckets HISTOGRAM_BUCKETS : ℤ) = (h.count : ℤ) := by
      obtain ⟨hc1, hc2⟩ := foldl_record_counted l Histogram.empty hl
      rw [hc1, hc2]
      simp [Histogram.countedBuckets, Histogram.empty]
    have htle : ⌈p / 100 * (h.count : ℚ)⌉ ≤ (h.count : ℤ) := by
      have hc0 : (0 : ℚ) ≤ (h.count : ℚ) := Nat.cast_nonneg _
      have hstep : p / 100 * (h.count : ℚ) ≤ (h.count : ℚ) :=
        frac_mul_le p _ hp1 hc0
      calc ⌈p / 100 * (h.count : ℚ)⌉ ≤ ⌈(h.count : ℚ)⌉ := Int.ceil_le_ceil hstep
        _ = (h.count : ℤ) := Int.ceil_natCast _
    have hex : ∃ k, k < HISTOGRAM_BUCKETS ∧
        ⌈p / 100 * (h.count : ℚ)⌉
          ≤ (0 : ℤ) + ∑ j ∈ Finset.range (k + 1), (h.buckets (0 + j) : ℤ) := by
      refine ⟨HISTOGRAM_BUCKETS - 1, by norm_num [HISTOGRAM_BUCKETS], ?_⟩
      have h1 : HISTOGRAM_BUCKETS - 1 + 1 = HISTOGRAM_BUCKETS := by
        norm_num [HISTOGRAM_BUCKETS]
      rw [h1, zero_add]
      have h2 : ∑ j ∈ Finset.range HISTOGRAM_BUCKETS, (h.buckets (0 + j) : ℤ)
          = (h.countedBuckets HISTOGRAM_BUCKETS : ℤ) := by
        rw [Histogram.countedBuckets]
        push_cast
        exact Finset.sum_congr rfl (fun j _ => by rw [Nat.zero_add])
      rw [h2, hsum]
      exact htle
    obtain ⟨k, hk, heq, hle, hmin⟩ :=
      percentileScan_found h.buckets ⌈p / 100 * (h.count : ℚ)⌉ HISTOGRAM_BUCKETS 0 0 hex
    refine ⟨k, hk, ?_, ?_, ?_⟩
    · rw [Histogram.getPercentile, if_neg hne, heq]
      norm_num
    · rw [cumCount]
      have := hle
      rw [zero_add] at this
      calc ⌈p / 100 * (h.count : ℚ)⌉
          ≤ ∑ j ∈ Finset.range (k + 1), (h.buckets (0 + j) : ℤ) := this
        _ = ∑ j ∈ Finset.range (k + 1), (h.buckets j : ℤ) :=
            Finset.sum_congr rfl (fun j _ => by rw [Nat.zero_add])
    · intro j hj
      have := hmin j hj
      rw [zero_add] at this
      rw [cumCount]
      calc ∑ m ∈ Finset.range (j + 1), (h.buckets m : ℤ)
          = ∑ m ∈ Finset.range (j + 1), (h.buckets (0 + m) : ℤ) :=
            Finset.sum_congr rfl (fun m _ => by rw [Nat.zero_add])
        _ < ⌈p / 100 * (h.count : ℚ)⌉ := this

/-- Witness for C7 at a one-sample histogram and `p = 50`. -/
theorem getPercentile_spec_witness :
    ((∀ v ∈ [(1500 : ℚ)], 0 ≤ v) ∧ (0 : ℚ) ≤ 50 ∧ (50 : ℚ) ≤ 100) ∧
    (let h := [(1500 : ℚ)].foldl Histogram.record Histogram.empty
     (∀ q : ℚ, h.count = 0 →
        h.getPercentile q = 0 ∧ h.getMean = 0 ∧ h.getStdDev (fun _ => 0) = 0) ∧
     (h.count < 2 → h.getStdDev (fun _ => 0) = 0) ∧
     (h.count ≠ 0 →
        ∃ i, i < HISTOGRAM_BUCKETS ∧
          h.getPercentile 50 = ((i : ℚ) + 1/2) * BUCKET_WIDTH_US ∧
          ⌈(50 : ℚ) / 100 * (h.count : ℚ)⌉ ≤ cumCount h.buckets i ∧
          ∀ j < i, cumCount h.buckets j < ⌈(50 : ℚ) / 100 * (h.count : ℚ)⌉)) :=
  ⟨⟨by decide, by norm_num, by norm_num⟩,
    getPercentile_spec (fun _ => 0) [(1500 : ℚ)] (by decide) 50 (by norm_num) (by norm_num)⟩


/-! ## Lemmas about the rate limiter -/

lemma refill_fired (s : RateLimiter) (now : ℚ)
    (hadd : 1 ≤ (now - s.lastRefill) / 1000 * s.ratePerSecond) :
    s.refill now =
      { s with
          tokens :=
            Min.min s.ratePerSecond (s.tokens + (now - s.lastRefill) / 1000 * s.ratePerSecond)
          lastRefill := now } := by
  simp [RateLimiter.refill, hadd]

lemma refill_skipped (s : RateLimiter) (now : ℚ)
    (hadd : ¬ 1 ≤ (now - s.lastRefill) / 1000 * s.ratePerSecond) :
    s.refill now = s := by
  simp [RateLimiter.refill, hadd]

lemma jsRem_bounds (a b : ℚ) (ha : 0 ≤ a) (hb : 0 < b) :
    0 ≤ jsRem a b ∧ jsRem a b < b ∧ jsRem a b = a - b * (⌊a / b⌋ : ℚ) := by
  have hdiv : 0 ≤ a / b := div_nonneg ha hb.le
  have heq : jsRem a b = a - b * (⌊a / b⌋ : ℚ) := by
    unfold jsRem
    rw [if_pos hdiv]
  refine ⟨?_, ?_, heq⟩
  · rw [heq]
    have h1 : ((⌊a / b⌋ : ℚ)) ≤ a / b := Int.floor_le _
    have h2 : (⌊a / b⌋ : ℚ) * b ≤ a := by
      rw [← le_div_iff₀ hb]
      exact h1
    linarith [h2]
  · rw [heq]
    have h1 : a / b < (⌊a / b⌋ : ℚ) + 1 := Int.lt_floor_add_one _
    have h2 : a < ((⌊a / b⌋ : ℚ) + 1) * b := by
      rw [← div_lt_iff₀ hb]
      exact h1
    nlinarith [h2]

/-- C5 (amended): for a limiter in a reachable state with rate
`r ≥ 1`, `tokens ∈ [0, capacity]` (capacity = r) holds initially and
is preserved by `tryAcquire` and by `acquire` (with sleeps modelled as
exact); `acquire` refills capped at capacity, decrements and returns
immediately when a token is available after the refill, and otherwise
sleeps `intervalMs − ((now − lastRefill) % intervalMs)` milliseconds
(to the next refill-interval boundary) before refilling and
decrementing. -/
theorem rateLimiter_invariants (s : RateLimiter) (now : ℚ)
    (hwf : s.WF) (hnow : s.lastRefill ≤ now) :
    (∀ r t0 : ℚ, 0 < r →
       (RateLimiter.init r t0).tokens = r ∧ 0 ≤ (RateLimiter.init r t0).tokens ∧
         (RateLimiter.init r t0).tokens ≤ r) ∧
    (0 ≤ (s.tryAcquire now).2.tokens ∧ (s.tryAcquire now).2.tokens ≤ s.ratePerSecond) ∧
    (0 ≤ (s.acquire now).1.tokens ∧ (s.acquire now).1.tokens ≤ s.ratePerSecond) ∧
    (1 ≤ (s.refill now).tokens →
       (s.acquire now).2 = now ∧
         (s.acquire now).1.tokens = (s.refill now).tokens - 1) ∧
    (¬ 1 ≤ (s.refill now).tokens →
       (s.acquire now).2
         = now + (s.intervalMs - jsRem (now - s.lastRefill) s.intervalMs)) := by
  obtain ⟨hr, hint, ht0, ht1⟩ := hwf
  have hrpos : (0 : ℚ) < s.ratePerSecond := lt_of_lt_of_le one_pos hr
  have hipos : (0 : ℚ) < s.intervalMs := by
    rw [hint]
    positivity
  have hinit : ∀ r t0 : ℚ, 0 < r →
      (RateLimiter.init r t0).tokens = r ∧ 0 ≤ (RateLimiter.init r t0).tokens ∧
        (RateLimiter.init r t0).tokens ≤ r :=
    fun r t0 hrp => ⟨rfl, le_of_lt hrp, le_refl r⟩
  have hrefb : 0 ≤ (s.refill now).tokens ∧ (s.refill now).tokens ≤ s.ratePerSecond := by
    by_cases hadd : 1 ≤ (now - s.lastRefill) / 1000 * s.ratePerSecond
    · rw [refill_fired s now hadd]
      constructor
      · exact le_min hrpos.le (by linarith)
      · exact min_le_left _ _
    · rw [refill_skipped s now hadd]
      exact ⟨ht0, ht1⟩
  have htry : 0 ≤ (s.tryAcquire now).2.tokens ∧ (s.tryAcquire now).2.tokens ≤ s.ratePerSecond := by
    unfold RateLimiter.tryAcquire
    by_cases htok : 1 ≤ (s.refill now).tokens
    · rw [if_pos htok]
      dsimp only
      exact ⟨by linarith, by linarith [hrefb.2]⟩
    · rw [if_neg htok]
      dsimp only
      exact hrefb
  refine ⟨hinit, htry, ?_⟩
  by_cases htok : 1 ≤ (s.refill now).tokens
  · have hacq : s.acquire now = ({ s.refill now with tokens := (s.refill now).tokens - 1 }, now) := by
      unfold RateLimiter.acquire
      rw [if_pos htok]
    rw [hacq]
    dsimp only
    exact ⟨⟨by linarith, by linarith [hrefb.2]⟩, fun _ => ⟨rfl, rfl⟩,
      fun hc => absurd htok hc⟩
  · -- slow path: the first refill cannot have fired (it would have left at least one token)
    have hadd : ¬ 1 ≤ (now - s.lastRefill) / 1000 * s.ratePerSecond := by
      intro hadd
      rw [refill_fired s now hadd] at htok
      exact htok (le_min hr (by linarith))
    have href : s.refill now = s := refill_skipped s now hadd
    obtain ⟨hrem0, hremlt, hremeq⟩ :=
      jsRem_bounds (now - s.lastRefill) s.intervalMs (by linarith) hipos
    have hW0 : 0 < s.intervalMs - jsRem (now - s.lastRefill) s.intervalMs := by linarith
    have hmax : Max.max 0 (s.intervalMs - jsRem (now - s.lastRefill) s.intervalMs)
        = s.intervalMs - jsRem (now - s.lastRefill) s.intervalMs := max_eq_right hW0.le
    set K : ℤ := ⌊(now - s.lastRefill) / s.intervalMs⌋ with hK
    have hK0 : (0 : ℤ) ≤ K :=
      Int.floor_nonneg.mpr (div_nonneg (by linarith) hipos.le)
    set now2 : ℚ := now + (s.intervalMs - jsRem (now - s.lastRefill) s.intervalMs) with hnow2
    have helapsed : now2 - s.lastRefill = s.intervalMs * ((K : ℚ) + 1) := by
      rw [hnow2, hremeq]
      ring
    have hadd2 : (now2 - s.lastRefill) / 1000 * s.ratePerSecond = (K : ℚ) + 1 := by
      rw [helapsed, hint]
      field_simp
      ring
    have hadd2ge : 1 ≤ (now2 - s.lastRefill) / 1000 * s.ratePerSecond := by
      rw [hadd2]
      have : (0 : ℚ) ≤ (K : ℚ) := by exact_mod_cast hK0
      linarith
    have href2 := refill_fired s now2 hadd2ge
    have htok2 : 1 ≤ (s.refill now2).tokens := by
      rw [href2]
      refine le_min hr ?_
      rw [hadd2]
      have : (0 : ℚ) ≤ (K : ℚ) := by exact_mod_cast hK0
      linarith
    have htok' : ¬ 1 ≤ s.tokens := href ▸ htok
    have hacq : s.acquire now
        = ({ s.refill now2 with tokens := (s.refill now2).tokens - 1 }, now2) := by
      unfold RateLimiter.acquire
      rw [href, if_neg htok']
      dsimp only
      rw [hmax]
    have hrefb2 : 0 ≤ (s.refill now2).tokens ∧ (s.refill now2).tokens ≤ s.ratePerSecond := by
      rw [href2]
      exact ⟨le_min hrpos.le (by linarith), min_le_left _ _⟩
    rw [hacq]
    dsimp only
    exact ⟨⟨by linarith [htok2], by linarith [hrefb2.2]⟩,
      fun hc => absurd hc htok, fun _ => rfl⟩


/-- Witness for C5 (amended) at the concrete state
`RateLimiter.init 2 0` queried at clock value 100. -/
theorem rateLimiter_invariants_witness :
    ((RateLimiter.init 2 0).WF ∧ (RateLimiter.init 2 0).lastRefill ≤ 100) ∧
    ((∀ r t0 : ℚ, 0 < r →
       (RateLimiter.init r t0).tokens = r ∧ 0 ≤ (RateLimiter.init r t0).tokens ∧
         (RateLimiter.init r t0).tokens ≤ r) ∧
     (0 ≤ ((RateLimiter.init 2 0).tryAcquire 100).2.tokens ∧
       ((RateLimiter.init 2 0).tryAcquire 100).2.tokens
         ≤ (RateLimiter.init 2 0).ratePerSecond) ∧
     (0 ≤ ((RateLimiter.init 2 0).acquire 100).1.tokens ∧
       ((RateLimiter.init 2 0).acquire 100).1.tokens
         ≤ (RateLimiter.init 2 0).ratePerSecond) ∧
     (1 ≤ ((RateLimiter.init 2 0).refill 100).tokens →
       ((RateLimiter.init 2 0).acquire 100).2 = 100 ∧
         ((RateLimiter.init 2 0).acquire 100).1.tokens
           = ((RateLimiter.init 2 0).refill 100).tokens - 1) ∧
     (¬ 1 ≤ ((RateLimiter.init 2 0).refill 100).tokens →
       ((RateLimiter.init 2 0).acquire 100).2
         = 100 + ((RateLimiter.init 2 0).intervalMs
             - jsRem (100 - (RateLimiter.init 2 0).lastRefill)
                 (RateLimiter.init 2 0).intervalMs))) :=
  ⟨⟨⟨by norm_num [RateLimiter.init], rfl, by norm_num [RateLimiter.init],
      by norm_num [RateLimiter.init]⟩, by norm_num [RateLimiter.init]⟩,
    rateLimiter_invariants (RateLimiter.init 2 0) 100
      ⟨by norm_num [RateLimiter.init], rfl, by norm_num [RateLimiter.init],
        by norm_num [RateLimiter.init]⟩ (by norm_num [RateLimiter.init])⟩

/-- C5 counterexample: (a) with rate `r = 1/2 > 0`, a single
`acquire` from the initial state drives `tokens` to `−1/2 < 0`, so
`tokens ∈ [0, capacity]` is not preserved for every `r > 0`; (b) with
rate 2 and two immediate acquisitions followed by an `acquire` at
`now = 100` ms, the loop sleeps 400 ms (to the next refill-interval
boundary), not the `(1 − tokens)/r = 500` ms the claim states. -/
theorem rateLimiter_counterexample :
    (0 : ℚ) < 1/2 ∧
    ¬ (0 ≤ ((RateLimiter.init (1/2) 0).acquire 0).1.tokens) ∧
    ((((RateLimiter.init 2 0).acquire 0).1.acquire 0).1.acquire 100).2 - 100 = 400 ∧
    (1 - (((RateLimiter.init 2 0).acquire 0).1.acquire 0).1.tokens)
        / (((RateLimiter.init 2 0).acquire 0).1.acquire 0).1.ratePerSecond * 1000 = 500 ∧
    (400 : ℚ) ≠ 500 := by
  have hjs0 : jsRem ((0 : ℚ) - (RateLimiter.init (1/2) 0).lastRefill)
      (RateLimiter.init (1/2) 0).intervalMs = 0 := by
    simp [jsRem, RateLimiter.init]
  have hA : ((RateLimiter.init (1/2) 0).acquire 0).1.tokens = -(1/2) := by
    unfold RateLimiter.acquire
    rw [refill_skipped _ _ (by norm_num [RateLimiter.init])]
    rw [if_neg (by norm_num [RateLimiter.init])]
    dsimp only
    rw [hjs0]
    rw [show (0 : ℚ) + Max.max 0 ((RateLimiter.init (1/2) 0).intervalMs - 0) = 2000 by
      norm_num [RateLimiter.init]]
    rw [refill_fired _ _ (by norm_num [RateLimiter.init])]
    dsimp only
    rw [min_def]
    norm_num [RateLimiter.init]
  have hB1 : (RateLimiter.init 2 0).acquire 0
      = (⟨2, 500, 1, 0⟩, 0) := by
    unfold RateLimiter.acquire
    rw [refill_skipped _ _ (by norm_num [RateLimiter.init])]
    rw [if_pos (by norm_num [RateLimiter.init])]
    simp [RateLimiter.init, RateLimiter.mk.injEq, Prod.ext_iff]
    norm_num
  have hB2 : (⟨2, 500, 1, 0⟩ : RateLimiter).acquire 0 = (⟨2, 500, 0, 0⟩, 0) := by
    unfold RateLimiter.acquire
    rw [refill_skipped _ _ (by norm_num)]
    rw [if_pos (by norm_num)]
    simp [RateLimiter.mk.injEq, Prod.ext_iff]
  have hfl : (⌊(100 : ℚ) / 500⌋ : ℤ) = 0 := by
    rw [Int.floor_eq_iff]
    norm_num
  have hjs100 : jsRem ((100 : ℚ) - 0) 500 = 100 := by
    unfold jsRem
    rw [if_pos (by norm_num)]
    rw [show ((100 : ℚ) - 0) / 500 = (100 : ℚ) / 500 by norm_num, hfl]
    norm_num
  have hB3 : (⟨2, 500, 0, 0⟩ : RateLimiter).acquire 100 = (⟨2, 500, 0, 500⟩, 500) := by
    unfold RateLimiter.acquire
    rw [refill_skipped _ _ (by norm_num)]
    rw [if_neg (by norm_num)]
    dsimp only
    rw [hjs100]
    rw [show (100 : ℚ) + Max.max 0 ((500 : ℚ) - 100) = 500 by
      rw [max_eq_right] <;> norm_num]
    rw [refill_fired _ _ (by norm_num)]
    dsimp only
    rw [min_def]
    simp [RateLimiter.mk.injEq, Prod.ext_iff]
    norm_num
  refine ⟨by norm_num, ?_, ?_, ?_, by norm_num⟩
  · rw [hA]
    norm_num
  · rw [hB1]
    dsimp only
    rw [hB2]
    dsimp only
    rw [hB3]
    norm_num
  · rw [hB1]
    dsimp only
    rw [hB2]
    norm_num

end SwiftBench
